import Mathlib

/-!
Verification of the signed-request core of the TradingBot repository
(`simplified_binance_futures_bot.py`) against its natural-language
specification.  The Python code is shallowly embedded: byte strings are
`List Nat` (each element a byte value), `dict`s are insertion-ordered
association lists `List (String × String)` (CPython 3.7+ semantics),
machine words are `Nat` reduced modulo 2^32 where the algorithm does,
and every effect (HTTP call, server-time fetch, logging, in-place dict
mutation) is made explicit in the result type of the embedded function.
-/

namespace TradingBot

/-! ## Bytes and hexadecimal rendering -/

/-- The sixteen lowercase hexadecimal digit characters, in value order. -/
def hexChars : List Char := "0123456789abcdef".toList

/-- The lowercase hexadecimal digit of `n % 16`. -/
def hexDigit (n : Nat) : Char := hexChars.getD (n % 16) '0'

/-- One byte as two lowercase hexadecimal digits, as Python's
`bytes.hex()` / `hexdigest()` renders it. -/
def byteHex (b : Nat) : List Char := [hexDigit (b / 16), hexDigit b]

/-- A byte string as its lowercase hexadecimal rendering
(Python `hmac.new(...).hexdigest()`). -/
def bytesToHex (bs : List Nat) : String := String.mk (bs.map byteHex).flatten

/-- The sixteen uppercase hexadecimal digit characters, in value order. -/
def hexUpperChars : List Char := "0123456789ABCDEF".toList

/-- The uppercase hexadecimal digit of `n % 16`. -/
def hexUpperDigit (n : Nat) : Char := hexUpperChars.getD (n % 16) '0'

/-! ## UTF-8 encoding (`str.encode('utf-8')`) -/

/-- UTF-8 encoding of one Unicode scalar value. -/
def utf8Char (n : Nat) : List Nat :=
  if n < 128 then [n]
  else if n < 2048 then [192 + n / 64, 128 + n % 64]
  else if n < 65536 then [224 + n / 4096, 128 + n / 64 % 64, 128 + n % 64]
  else [240 + n / 262144, 128 + n / 4096 % 64, 128 + n / 64 % 64, 128 + n % 64]

/-- UTF-8 encoding of a string, as Python's `s.encode('utf-8')`. -/
def utf8 (s : String) : List Nat := (s.toList.map (fun c => utf8Char c.toNat)).flatten

/-! ## SHA-256 (FIPS 180-4), the hash behind `hashlib.sha256` -/

/-- 2^32, the word modulus of SHA-256. -/
def M32 : Nat := 4294967296

/-- Addition modulo 2^32. -/
def add32 (x y : Nat) : Nat := (x + y) % M32

/-- Right rotation of a 32-bit word by `n` places. -/
def rotr32 (n x : Nat) : Nat := (x >>> n ||| x <<< (32 - n)) % M32

/-- Bitwise complement of a 32-bit word. -/
def not32 (x : Nat) : Nat := x ^^^ (M32 - 1)

/-- SHA-256 choice function Ch. -/
def chFun (x y z : Nat) : Nat := Nat.xor (x &&& y) (not32 x &&& z)

/-- SHA-256 majority function Maj. -/
def majFun (x y z : Nat) : Nat := Nat.xor (Nat.xor (x &&& y) (x &&& z)) (y &&& z)

/-- SHA-256 big sigma 0. -/
def bigSigma0 (x : Nat) : Nat := rotr32 2 x ^^^ rotr32 13 x ^^^ rotr32 22 x

/-- SHA-256 big sigma 1. -/
def bigSigma1 (x : Nat) : Nat := rotr32 6 x ^^^ rotr32 11 x ^^^ rotr32 25 x

/-- SHA-256 small sigma 0. -/
def smallSigma0 (x : Nat) : Nat := rotr32 7 x ^^^ rotr32 18 x ^^^ (x >>> 3)

/-- SHA-256 small sigma 1. -/
def smallSigma1 (x : Nat) : Nat := rotr32 17 x ^^^ rotr32 19 x ^^^ (x >>> 10)

/-- The 64 SHA-256 round constants. -/
def K256 : List Nat :=
  [1116352408, 1899447441, 3049323471, 3921009573,
   961987163, 1508970993, 2453635748, 2870763221,
   3624381080, 310598401, 607225278, 1426881987,
   1925078388, 2162078206, 2614888103, 3248222580,
   3835390401, 4022224774, 264347078, 604807628,
   770255983, 1249150122, 1555081692, 1996064986,
   2554220882, 2821834349, 2952996808, 3210313671,
   3336571891, 3584528711, 113926993, 338241895,
   666307205, 773529912, 1294757372, 1396182291,
   1695183700, 1986661051, 2177026350, 2456956037,
   2730485921, 2820302411, 3259730800, 3345764771,
   3516065817, 3600352804, 4094571909, 275423344,
   430227734, 506948616, 659060556, 883997877,
   958139571, 1322822218, 1537002063, 1747873779,
   1955562222, 2024104815, 2227730452, 2361852424,
   2428436474, 2756734187, 3204031479, 3329325298]

/-- The initial SHA-256 state words. -/
def H256 : List Nat :=
  [1779033703, 3144134277, 1013904242, 2773480762,
   1359893119, 2600822924, 528734635, 1541459225]

/-- Big-endian 64-bit rendering of a bit length, for the padding block. -/
def be64 (n : Nat) : List Nat :=
  [n >>> 56 % 256, n >>> 48 % 256, n >>> 40 % 256, n >>> 32 % 256,
   n >>> 24 % 256, n >>> 16 % 256, n >>> 8 % 256, n % 256]

/-- SHA-256 message padding: append `0x80`, zero bytes up to 56 mod 64,
then the original bit length as a big-endian 64-bit integer. -/
def shaPad (msg : List Nat) : List Nat :=
  msg ++ [128] ++ List.replicate ((119 - msg.length % 64) % 64) 0 ++ be64 (8 * msg.length)

/-- The big-endian 32-bit word starting at byte offset `4 * i`. -/
def word32At (bs : List Nat) (i : Nat) : Nat :=
  bs.getD (4 * i) 0 * 16777216 + bs.getD (4 * i + 1) 0 * 65536 +
    bs.getD (4 * i + 2) 0 * 256 + bs.getD (4 * i + 3) 0

/-- The sixteen message words of one 64-byte block. -/
def blockWords (block : List Nat) : List Nat := (List.range 16).map (word32At block)

/-- Extend the message schedule by `n` further words. -/
def extendWords : Nat → List Nat → List Nat
  | 0, ws => ws
  | n + 1, ws =>
    let k := ws.length
    extendWords n (ws ++ [(smallSigma1 (ws.getD (k - 2) 0) + ws.getD (k - 7) 0 +
      smallSigma0 (ws.getD (k - 15) 0) + ws.getD (k - 16) 0) % M32])

/-- One SHA-256 round on the eight working variables, fed one
round-constant/schedule-word pair. -/
def shaRound (st : List Nat) (kw : Nat × Nat) : List Nat :=
  let t1 := (st.getD 7 0 + bigSigma1 (st.getD 4 0) +
    chFun (st.getD 4 0) (st.getD 5 0) (st.getD 6 0) + kw.1 + kw.2) % M32
  let t2 := (bigSigma0 (st.getD 0 0) +
    majFun (st.getD 0 0) (st.getD 1 0) (st.getD 2 0)) % M32
  [(t1 + t2) % M32, st.getD 0 0, st.getD 1 0, st.getD 2 0,
   (st.getD 3 0 + t1) % M32, st.getD 4 0, st.getD 5 0, st.getD 6 0]

/-- Compress one 64-byte block into the running state. -/
def shaCompress (hs : List Nat) (block : List Nat) : List Nat :=
  List.zipWith add32 hs ((K256.zip (extendWords 48 (blockWords block))).foldl shaRound hs)

/-- Split a byte string into 64-byte blocks. -/
def toBlocks (l : List Nat) : List (List Nat) :=
  if h : l = [] then []
  else l.take 64 :: toBlocks (l.drop 64)
termination_by l.length
decreasing_by
  simp only [List.length_drop]
  have : 0 < l.length := List.length_pos.mpr h
  omega

/-- The four bytes of a 32-bit word, most significant first. -/
def word32Bytes (w : Nat) : List Nat :=
  [w >>> 24 % 256, w >>> 16 % 256, w >>> 8 % 256, w % 256]

/-- SHA-256 of a byte string, as a 32-byte digest. -/
def sha256 (msg : List Nat) : List Nat :=
  (((toBlocks (shaPad msg)).foldl shaCompress H256).map word32Bytes).flatten

/-! ## HMAC-SHA256 (RFC 2104), the construction behind `hmac.new(key, msg, hashlib.sha256)` -/

/-- HMAC-SHA256 of `msg` keyed by `key` (block size 64 bytes). -/
def hmacSha256 (key msg : List Nat) : List Nat :=
  let k0 := if 64 < key.length then sha256 key else key
  let k := k0 ++ List.replicate (64 - k0.length) 0
  sha256 (k.map (fun b => b ^^^ 92) ++ sha256 (k.map (fun b => b ^^^ 54) ++ msg))

/-! ## Query-string encoding (`urllib.parse.urlencode(data, doseq=True)`) -/

/-- Characters `urllib.parse.quote` never escapes: ASCII letters, digits
and `_.-~`. -/
def urlSafeChar (c : Char) : Bool :=
  c.isAlphanum || c = '_' || c = '.' || c = '-' || c = '~'

/-- Percent-escape of one byte, with uppercase hexadecimal digits as
CPython produces. -/
def pctByte (b : Nat) : List Char := ['%', hexUpperDigit (b / 16), hexUpperDigit b]

/-- `quote_plus` on a single character: kept when always-safe, space
becomes `+`, anything else is percent-escaped per UTF-8 byte. -/
def quoteChar (c : Char) : List Char :=
  if urlSafeChar c then [c]
  else if c = ' ' then ['+']
  else ((utf8Char c.toNat).map pctByte).flatten

/-- `urllib.parse.quote_plus` with its default empty `safe` set. -/
def quotePlus (s : String) : String := String.mk (s.toList.map quoteChar).flatten

/-- One `key=value` pair of the encoded query string. -/
def encPair (p : String × String) : String := quotePlus p.1 ++ "=" ++ quotePlus p.2

/-- `urllib.parse.urlencode(data, doseq=True)` on string-valued pairs:
the `key=value` encodings joined by `&`, in insertion order.  (No value
in this program is a sequence, so `doseq` changes nothing.) -/
def urlencode : List (String × String) → String
  | [] => ""
  | [p] => encPair p
  | p :: q :: rest => encPair p ++ "&" ++ urlencode (q :: rest)

/-! ## Decimal rendering (`str(int)` and `format(float, 'f')`) -/

/-- The decimal digits of `n`, most significant first, with a structural
recursion bound (`fuel ≥ n` renders all of `n`); empty for zero. -/
def natDigitsAux : Nat → Nat → List Char
  | 0, _ => []
  | fuel + 1, n => if n = 0 then [] else natDigitsAux fuel (n / 10) ++ [hexDigit (n % 10)]

/-- The decimal digits of `n`, most significant first; empty for zero. -/
def natDigits (n : Nat) : List Char := natDigitsAux n n

/-- The decimal rendering of a natural number. -/
def natDecimal (n : Nat) : String := if n = 0 then "0" else String.mk (natDigits n)

/-- Python `str` on an integer. -/
def intDecimal (i : Int) : String :=
  if i < 0 then "-" ++ natDecimal (-i).toNat else natDecimal i.toNat

/-- Round a rational to an integer, ties to even, as CPython's float
formatting rounds. -/
def roundHalfEven (q : ℚ) : ℤ :=
  if 2 * (q - ⌊q⌋) < 1 then ⌊q⌋
  else if 1 < 2 * (q - ⌊q⌋) then ⌊q⌋ + 1
  else if ⌊q⌋ % 2 = 0 then ⌊q⌋ else ⌊q⌋ + 1

/-- Fixed-point rendering of a nonnegative value scaled by 10^6:
integer part, a dot, then exactly six fraction digits. -/
def fmtScaled6 (n : Nat) : String :=
  natDecimal (n / 1000000) ++ "." ++
    String.mk (List.replicate (6 - (natDigits (n % 1000000)).length) '0' ++
      natDigits (n % 1000000))

/-- `format(x, 'f')`: fixed-point decimal with the default six fraction
digits and no exponent, modelled over exact rationals (the binary
rounding of the Python `float` input is not modelled; the notation and
digit layout are what the claims are about). -/
def formatFixed (q : ℚ) : String :=
  if q < 0 then "-" ++ fmtScaled6 (roundHalfEven (-q * 1000000)).toNat
  else fmtScaled6 (roundHalfEven (q * 1000000)).toNat

/-- `BinanceFuturesRest._fmt_qty`: `format(float(q), 'f')`. -/
def fmt_qty (q : ℚ) : String := formatFixed q

/-- `BinanceFuturesRest._fmt_price`: `format(float(p), 'f')`. -/
def fmt_price (p : ℚ) : String := formatFixed p

/-- Python `str(bool).lower()`. -/
def pyBoolStr (b : Bool) : String := if b then "true" else "false"

/-! ## Ordered mappings (CPython 3.7+ `dict`) -/

/-- `d[k] = v` on an insertion-ordered dict: an existing key keeps its
position and gets the new value; a new key is appended last. -/
def dictInsert (d : List (String × String)) (k v : String) : List (String × String) :=
  if k ∈ d.map Prod.fst then d.map (fun p => if p.1 = k then (k, v) else p)
  else d ++ [(k, v)]

/-! ## The REST client (`BinanceFuturesRest`) -/

/-- `TESTNET_BASE` from the source configuration block. -/
def TESTNET_BASE : String := "https://testnet.binancefuture.com"

/-- `API_ORDER_PATH` from the source configuration block. -/
def API_ORDER_PATH : String := "/fapi/v1/order"

/-- `API_TIME_PATH` from the source configuration block. -/
def API_TIME_PATH : String := "/fapi/v1/time"

/-- What one `GET /fapi/v1/time` attempt yields: an exception
(network error, timeout, undecodable body, non-integer `serverTime` —
all caught uniformly by the source's `except Exception`), or a response
with its status and the `serverTime` field when the decoded JSON has
one. -/
structure TimeResp where
  status : Nat
  serverTime : Option Int

/-- `requests.Response.raise_for_status` raises exactly for statuses in
400–599. -/
def raisesForStatus (s : Nat) : Bool := decide (400 ≤ s ∧ s < 600)

/-- `BinanceFuturesRest._get_timestamp`, with the fetch outcome and the
local wall clock passed as explicit oracles.  A failed fetch, a 4xx/5xx
status, and a missing or falsy (zero) `serverTime` all fall back to the
local time; the function is total, so it never raises to its caller. -/
def get_timestamp (fetch : Except Unit TimeResp) (localMs : Int) : Int :=
  match fetch with
  | .error _ => localMs
  | .ok r =>
    if raisesForStatus r.status then localMs
    else match r.serverTime with
      | some t => if t = 0 then localMs else t
      | none => localMs

/-- What the one `session.post`/`delete`/`get` call of `_send_signed`
yields: a response (status, raw text, and the decoded JSON mapping when
the body decodes), or a transport-level exception with no response. -/
inductive HttpOutcome where
  | response (status : Nat) (text : String) (jsonBody : Option (List (String × String)))
  | transportError (cause : String)

/-- The error body the source's `requests.HTTPError` handler extracts:
`r.json()` when the body decodes, else `r.text`. -/
inductive ErrBody where
  | json (j : List (String × String))
  | text (t : String)

/-- How a failing `_send_signed` call surfaces to its caller.
`remoteRejected` is the re-raised `requests.HTTPError` (4xx/5xx) with
the error body its handler extracted; `transportFailure` is any
re-raised non-HTTP exception of the request itself (DNS, connection,
timeout, TLS), no response obtained; `decodeFailure` is the re-raised
`r.json()` exception on a non-raising status with an undecodable
body. -/
inductive SendError where
  | remoteRejected (err : ErrBody)
  | transportFailure (cause : String)
  | decodeFailure (text : String)

/-- Everything observable about one `_send_signed` call: the caller's
payload dict after the call (the source mutates it in place), the
encoded body, the log lines written, how many HTTP calls the transport
made, and the returned JSON or raised error. -/
structure SendResult where
  payloadAfter : List (String × String)
  body : String
  logs : List String
  httpCalls : Nat
  result : Except SendError (List (String × String))

/-- The `REQUEST -> ...` debug log line of `_send_signed`. -/
def requestLog (method url body : String) : String :=
  "REQUEST -> " ++ method ++ " " ++ url ++ " | body: " ++ body

/-- The `RESPONSE [...] -> ...` debug log line of `_send_signed`. -/
def responseLog (status : Nat) (text : String) : String :=
  "RESPONSE [" ++ natDecimal status ++ "] -> " ++ text

/-- `BinanceFuturesRest._sign`: lowercase-hex HMAC-SHA256, keyed by the
raw secret bytes, over the UTF-8 bytes of the insertion-ordered query
encoding of `data`. -/
def sign (apiSecret : List Nat) (data : List (String × String)) : String :=
  bytesToHex (hmacSha256 apiSecret (utf8 (urlencode data)))

/-- `BinanceFuturesRest._send_signed`, with the time fetch, local clock
and HTTP outcome as explicit oracles.  Mirrors the source step for
step: insert `timestamp`, sign the mapping, append `signature`, encode
the body, log the request, make the one HTTP call, log and classify the
outcome.  (The body is the encoding requests sends for POST/DELETE; for
GET the same mapping is encoded into the query string.) -/
def send_signed (apiSecret : List Nat) (fetch : Except Unit TimeResp) (localMs : Int)
    (http : HttpOutcome) (method path : String)
    (payload : List (String × String)) : SendResult :=
  let url := TESTNET_BASE ++ path
  let p1 := dictInsert payload "timestamp" (intDecimal (get_timestamp fetch localMs))
  let sig := sign apiSecret p1
  let p2 := dictInsert p1 "signature" sig
  let body := urlencode p2
  let rqLog := requestLog method url body
  match http with
  | .transportError cause =>
      ⟨p2, body, [rqLog, "Network/Error: " ++ cause], 1,
        .error (.transportFailure cause)⟩
  | .response status text jsonBody =>
      if raisesForStatus status then
        let err : ErrBody := match jsonBody with
          | some j => .json j
          | none => .text text
        ⟨p2, body,
          [rqLog, responseLog status text,
            "HTTP error: " ++ natDecimal status ++ " for url " ++ url], 1,
          .error (.remoteRejected err)⟩
      else match jsonBody with
        | some j => ⟨p2, body, [rqLog, responseLog status text], 1, .ok j⟩
        | none =>
            ⟨p2, body,
              [rqLog, responseLog status text, "Network/Error: json decode error"], 1,
              .error (.decodeFailure text)⟩

/-- The payload dict `place_market_order` builds before delegating. -/
def marketPayload (symbol side : String) (quantity : ℚ) (reduceOnly : Bool) :
    List (String × String) :=
  [("symbol", symbol), ("side", side), ("type", "MARKET"),
   ("quantity", fmt_qty quantity), ("reduceOnly", pyBoolStr reduceOnly)]

/-- The payload dict `place_limit_order` builds before delegating. -/
def limitPayload (symbol side : String) (quantity price : ℚ)
    (timeInForce : String) (reduceOnly : Bool) : List (String × String) :=
  [("symbol", symbol), ("side", side), ("type", "LIMIT"),
   ("timeInForce", timeInForce), ("quantity", fmt_qty quantity),
   ("price", fmt_price price), ("reduceOnly", pyBoolStr reduceOnly)]

/-- The payload dict `place_stop_limit_order` builds before
delegating; note the wire type is `STOP`. -/
def stopLimitPayload (symbol side : String) (quantity stopPrice price : ℚ)
    (timeInForce : String) (reduceOnly : Bool) : List (String × String) :=
  [("symbol", symbol), ("side", side), ("type", "STOP"),
   ("quantity", fmt_qty quantity), ("stopPrice", fmt_price stopPrice),
   ("price", fmt_price price), ("timeInForce", timeInForce),
   ("reduceOnly", pyBoolStr reduceOnly)]

/-- `BinanceFuturesRest.place_market_order`: builds the payload and
posts it via `_send_signed` — the source performs no validation here. -/
def place_market_order (apiSecret : List Nat) (fetch : Except Unit TimeResp)
    (localMs : Int) (http : HttpOutcome) (symbol side : String) (quantity : ℚ)
    (reduceOnly : Bool) : SendResult :=
  send_signed apiSecret fetch localMs http "POST" API_ORDER_PATH
    (marketPayload symbol side quantity reduceOnly)

/-- `BinanceFuturesRest.place_limit_order`: builds the payload and
posts it via `_send_signed` — the source performs no validation here. -/
def place_limit_order (apiSecret : List Nat) (fetch : Except Unit TimeResp)
    (localMs : Int) (http : HttpOutcome) (symbol side : String) (quantity price : ℚ)
    (timeInForce : String) (reduceOnly : Bool) : SendResult :=
  send_signed apiSecret fetch localMs http "POST" API_ORDER_PATH
    (limitPayload symbol side quantity price timeInForce reduceOnly)

/-- `BinanceFuturesRest.place_stop_limit_order`: builds the payload and
posts it via `_send_signed` — the source performs no validation here. -/
def place_stop_limit_order (apiSecret : List Nat) (fetch : Except Unit TimeResp)
    (localMs : Int) (http : HttpOutcome) (symbol side : String)
    (quantity stopPrice price : ℚ) (timeInForce : String) (reduceOnly : Bool) :
    SendResult :=
  send_signed apiSecret fetch localMs http "POST" API_ORDER_PATH
    (stopLimitPayload symbol side quantity stopPrice price timeInForce reduceOnly)

/-! ## The CLI validation layer -/

/-- The CLI validator `positive_number` on an already-parsed numeric
argument value (the `float(x)` parse failure is a separate
`ArgumentTypeError` not modelled here). -/
def positive_number (v : ℚ) : Except String ℚ :=
  if v ≤ 0 then .error "must be > 0" else .ok v

/-- The CLI validator `valid_side` after its `upper()` call. -/
def valid_side (s : String) : Except String String :=
  if s = "BUY" ∨ s = "SELL" then .ok s else .error "side must be BUY or SELL"

/-! ## Concrete inputs used by witnesses and counterexamples -/

/-- A concrete API secret (the UTF-8 bytes of a short key). -/
def cSecret : List Nat := utf8 "demoSecret"

/-- A concrete builder payload. -/
def cPayload : List (String × String) := [("symbol", "BTCUSDT"), ("side", "BUY")]

/-- A concrete failed server-time fetch. -/
def cFetchFail : Except Unit TimeResp := .error ()

/-- A concrete local wall-clock reading in milliseconds. -/
def cLocal : Int := 1700000000000

/-- A concrete accepted HTTP exchange. -/
def cHttpOk : HttpOutcome := .response 200 "ok" (some [("orderId", "1")])

/-- The ten decimal digit characters. -/
def decDigits : List Char := "0123456789".toList

/-! ## Helper lemmas: digest shape -/

theorem foldl_shaRound_length (l : List (Nat × Nat)) (st : List Nat) (h : st.length = 8) :
    (l.foldl shaRound st).length = 8 := by
  induction l generalizing st with
  | nil => simpa using h
  | cons a t ih => exact ih (shaRound st a) rfl

theorem shaCompress_length (hs block : List Nat) (h : hs.length = 8) :
    (shaCompress hs block).length = 8 := by
  simp [shaCompress, List.length_zipWith, h,
    foldl_shaRound_length (K256.zip (extendWords 48 (blockWords block))) hs h]

theorem foldl_shaCompress_length (bs : List (List Nat)) (hs : List Nat) (h : hs.length = 8) :
    (bs.foldl shaCompress hs).length = 8 := by
  induction bs generalizing hs with
  | nil => simpa using h
  | cons b t ih => exact ih (shaCompress hs b) (shaCompress_length hs b h)

theorem flatten_word32Bytes_length (hs : List Nat) :
    ((hs.map word32Bytes).flatten).length = 4 * hs.length := by
  induction hs with
  | nil => rfl
  | cons w t ih => simp [word32Bytes, ih]; ring

theorem sha256_length (msg : List Nat) : (sha256 msg).length = 32 := by
  rw [sha256, flatten_word32Bytes_length,
    foldl_shaCompress_length (toBlocks (shaPad msg)) H256 rfl]

theorem hmacSha256_length (key msg : List Nat) : (hmacSha256 key msg).length = 32 := by
  rw [hmacSha256]
  exact sha256_length _

/-! ## Helper lemmas: hexadecimal rendering -/

theorem hexDigit_mem (n : Nat) : hexDigit n ∈ hexChars := by
  have hlt : n % 16 < 16 := Nat.mod_lt _ (by norm_num)
  have : ∀ m < 16, hexChars.getD m '0' ∈ hexChars := by decide
  exact this (n % 16) hlt

theorem bytesToHex_toList_mem (bs : List Nat) :
    ∀ c ∈ (bytesToHex bs).toList, c ∈ hexChars := by
  intro c hc
  have : c ∈ (bs.map byteHex).flatten := hc
  rcases List.mem_flatten.mp this with ⟨l, hl, hcl⟩
  rcases List.mem_map.mp hl with ⟨b, _, rfl⟩
  simp only [byteHex, List.mem_cons, List.not_mem_nil, or_false] at hcl
  rcases hcl with rfl | rfl
  · exact hexDigit_mem (b / 16)
  · exact hexDigit_mem b

theorem bytesToHex_length (bs : List Nat) :
    (bytesToHex bs).length = 2 * bs.length := by
  induction bs with
  | nil => rfl
  | cons b t ih =>
    have h2 : (bytesToHex (b :: t)).length = 2 + (bytesToHex t).length := by
      simp [bytesToHex, byteHex]
      omega
    rw [h2, ih]
    simp only [List.length_cons]
    omega

theorem sign_length (apiSecret : List Nat) (data : List (String × String)) :
    (sign apiSecret data).length = 64 := by
  rw [sign, bytesToHex_length, hmacSha256_length]

theorem sign_toList_mem (apiSecret : List Nat) (data : List (String × String)) :
    ∀ c ∈ (sign apiSecret data).toList, c ∈ hexChars :=
  bytesToHex_toList_mem _

/-! ## Helper lemmas: percent-encoding -/

theorem hexChars_safe : ∀ c ∈ hexChars, urlSafeChar c = true := by decide

theorem flatten_quoteChar_of_safe (l : List Char) (h : ∀ c ∈ l, urlSafeChar c = true) :
    (l.map quoteChar).flatten = l := by
  induction l with
  | nil => rfl
  | cons c t ih =>
    have hc : urlSafeChar c = true := h c (List.mem_cons_self c t)
    have ht := ih fun x hx => h x (List.mem_cons_of_mem c hx)
    simp [quoteChar, hc, ht]

theorem quotePlus_of_safe (s : String) (h : ∀ c ∈ s.toList, urlSafeChar c = true) :
    quotePlus s = s := by
  show String.mk (s.toList.map quoteChar).flatten = s
  rw [flatten_quoteChar_of_safe s.toList h]
  rfl

theorem quotePlus_sign (apiSecret : List Nat) (data : List (String × String)) :
    quotePlus (sign apiSecret data) = sign apiSecret data :=
  quotePlus_of_safe _ fun c hc => hexChars_safe c (sign_toList_mem apiSecret data c hc)

/-! ## Helper lemmas: query encoding and dict insertion -/

theorem urlencode_concat (xs : List (String × String)) (p : String × String)
    (h : xs ≠ []) :
    urlencode (xs ++ [p]) = urlencode xs ++ "&" ++ encPair p := by
  induction xs with
  | nil => exact absurd rfl h
  | cons a t ih =>
    cases t with
    | nil => rfl
    | cons b u =>
      have step := ih (by simp)
      show encPair a ++ "&" ++ urlencode ((b :: u) ++ [p]) = _
      rw [step]
      show _ = encPair a ++ "&" ++ urlencode (b :: u) ++ "&" ++ encPair p
      simp [String.append_assoc]

theorem dictInsert_of_not_mem (d : List (String × String)) (k v : String)
    (h : k ∉ d.map Prod.fst) : dictInsert d k v = d ++ [(k, v)] := by
  simp [dictInsert, h]

theorem dictInsert_keys (d : List (String × String)) (k v : String) :
    (dictInsert d k v).map Prod.fst =
      if k ∈ d.map Prod.fst then d.map Prod.fst else d.map Prod.fst ++ [k] := by
  by_cases h : k ∈ d.map Prod.fst
  · simp only [dictInsert, if_pos h, List.map_map]
    apply List.map_congr_left
    intro p _
    by_cases hk : p.1 = k <;> simp [hk]
  · simp [dictInsert, h]

theorem dictInsert_ne_nil (d : List (String × String)) (k v : String) :
    dictInsert d k v ≠ [] := by
  unfold dictInsert
  split
  · intro hcontra
    rw [List.map_eq_nil_iff] at hcontra
    rename_i hmem
    rw [hcontra] at hmem
    simp at hmem
  · simp

/-! ## Helper lemmas: the observable pieces of `_send_signed` -/

theorem send_signed_payloadAfter (apiSecret : List Nat) (fetch : Except Unit TimeResp)
    (localMs : Int) (http : HttpOutcome) (method path : String)
    (payload : List (String × String)) :
    (send_signed apiSecret fetch localMs http method path payload).payloadAfter =
      dictInsert (dictInsert payload "timestamp" (intDecimal (get_timestamp fetch localMs)))
        "signature"
        (sign apiSecret
          (dictInsert payload "timestamp" (intDecimal (get_timestamp fetch localMs)))) := by
  cases http with
  | transportError c => rfl
  | response s t j =>
    by_cases hs : raisesForStatus s <;> cases j <;> simp [send_signed, hs]

theorem send_signed_body_eq (apiSecret : List Nat) (fetch : Except Unit TimeResp)
    (localMs : Int) (http : HttpOutcome) (method path : String)
    (payload : List (String × String)) :
    (send_signed apiSecret fetch localMs http method path payload).body =
      urlencode
        (dictInsert (dictInsert payload "timestamp" (intDecimal (get_timestamp fetch localMs)))
          "signature"
          (sign apiSecret
            (dictInsert payload "timestamp" (intDecimal (get_timestamp fetch localMs))))) := by
  cases http with
  | transportError c => rfl
  | response s t j =>
    by_cases hs : raisesForStatus s <;> cases j <;> simp [send_signed, hs]

theorem send_signed_httpCalls (apiSecret : List Nat) (fetch : Except Unit TimeResp)
    (localMs : Int) (http : HttpOutcome) (method path : String)
    (payload : List (String × String)) :
    (send_signed apiSecret fetch localMs http method path payload).httpCalls = 1 := by
  cases http with
  | transportError c => rfl
  | response s t j =>
    by_cases hs : raisesForStatus s <;> cases j <;> simp [send_signed, hs]

theorem send_signed_logs_head (apiSecret : List Nat) (fetch : Except Unit TimeResp)
    (localMs : Int) (http : HttpOutcome) (method path : String)
    (payload : List (String × String)) :
    (send_signed apiSecret fetch localMs http method path payload).logs.head? =
      some (requestLog method (TESTNET_BASE ++ path)
        (send_signed apiSecret fetch localMs http method path payload).body) := by
  cases http with
  | transportError c => rfl
  | response s t j =>
    by_cases hs : raisesForStatus s <;> cases j <;> simp [send_signed, hs]

theorem send_signed_body_decomp (apiSecret : List Nat) (fetch : Except Unit TimeResp)
    (localMs : Int) (http : HttpOutcome) (method path : String)
    (payload : List (String × String))
    (h : "signature" ∉ payload.map Prod.fst) :
    (send_signed apiSecret fetch localMs http method path payload).body =
      urlencode (dictInsert payload "timestamp" (intDecimal (get_timestamp fetch localMs)))
        ++ "&signature="
        ++ sign apiSecret
            (dictInsert payload "timestamp" (intDecimal (get_timestamp fetch localMs))) := by
  set p1 := dictInsert payload "timestamp" (intDecimal (get_timestamp fetch localMs)) with hp1
  have hnot : "signature" ∉ p1.map Prod.fst := by
    rw [hp1, dictInsert_keys]
    split <;> simp_all
  rw [send_signed_body_eq, ← hp1, dictInsert_of_not_mem p1 "signature" _ hnot,
    urlencode_concat p1 _ (dictInsert_ne_nil payload "timestamp" _)]
  have hq : encPair ("signature", sign apiSecret p1) = "signature=" ++ sign apiSecret p1 := by
    show quotePlus "signature" ++ "=" ++ quotePlus (sign apiSecret p1) = _
    rw [quotePlus_sign]
    have : quotePlus "signature" = "signature" := by decide
    rw [this, String.append_assoc]
    rfl
  rw [hq]
  simp [String.append_assoc]
  rfl

/-! ## Helper lemmas: decimal digit character sets -/

theorem natDigitsAux_mem (fuel : Nat) : ∀ n, ∀ c ∈ natDigitsAux fuel n, c ∈ decDigits := by
  induction fuel with
  | zero => intro n c hc; cases hc
  | succ f ih =>
    intro n c hc
    rw [natDigitsAux] at hc
    split at hc
    · cases hc
    · rcases List.mem_append.mp hc with h1 | h1
      · exact ih (n / 10) c h1
      · simp only [List.mem_singleton] at h1
        subst h1
        have hd : ∀ m < 10, hexDigit m ∈ decDigits := by decide
        exact hd _ (Nat.mod_lt _ (by norm_num))

theorem natDigits_mem (n : Nat) : ∀ c ∈ natDigits n, c ∈ decDigits :=
  natDigitsAux_mem n n

theorem natDecimal_mem (n : Nat) : ∀ c ∈ (natDecimal n).toList, c ∈ decDigits := by
  intro c hc
  rw [natDecimal] at hc
  split at hc
  · rw [show ("0" : String).toList = ['0'] from rfl] at hc
    simp only [List.mem_singleton] at hc
    subst hc
    decide
  · exact natDigits_mem n c hc

theorem fmtScaled6_mem (n : Nat) : ∀ c ∈ (fmtScaled6 n).toList, c = '.' ∨ c ∈ decDigits := by
  intro c hc
  have hdec : (fmtScaled6 n).toList
      = ((natDecimal (n / 1000000)).toList ++ ['.'])
        ++ (List.replicate (6 - (natDigits (n % 1000000)).length) '0'
            ++ natDigits (n % 1000000)) := rfl
  rw [hdec] at hc
  rcases List.mem_append.mp hc with h1 | h2
  · rcases List.mem_append.mp h1 with h3 | h4
    · exact Or.inr (natDecimal_mem _ c h3)
    · simp only [List.mem_singleton] at h4
      exact Or.inl h4
  · rcases List.mem_append.mp h2 with h5 | h6
    · have h0 := List.eq_of_mem_replicate h5
      subst h0
      exact Or.inr (by decide)
    · exact Or.inr (natDigits_mem _ c h6)

theorem formatFixed_pos_mem (q : ℚ) (h : 0 < q) :
    ∀ c ∈ (formatFixed q).toList, c = '.' ∨ c ∈ decDigits := by
  intro c hc
  rw [formatFixed, if_neg (not_lt.mpr (le_of_lt h))] at hc
  exact fmtScaled6_mem _ c hc

/-! ## The claims -/

/-- C1: for every `_send_signed` call whose payload has no `signature`
key, the appended signature is computed over the serialization of the
builder payload plus `timestamp` — a mapping that itself has no
`signature` key — and `signature` is the last key of the final encoded
request body. -/
theorem signature_over_others_and_last (apiSecret : List Nat)
    (fetch : Except Unit TimeResp) (localMs : Int) (http : HttpOutcome)
    (method path : String) (payload : List (String × String))
    (h : "signature" ∉ payload.map Prod.fst) :
    "signature" ∉
      (dictInsert payload "timestamp" (intDecimal (get_timestamp fetch localMs))).map Prod.fst ∧
    (send_signed apiSecret fetch localMs http method path payload).body
      = urlencode (dictInsert payload "timestamp" (intDecimal (get_timestamp fetch localMs)))
        ++ "&signature="
        ++ sign apiSecret
            (dictInsert payload "timestamp" (intDecimal (get_timestamp fetch localMs))) ∧
    ((send_signed apiSecret fetch localMs http method path payload).payloadAfter.map
        Prod.fst).getLast? = some "signature" := by
  have hnot : "signature" ∉
      (dictInsert payload "timestamp" (intDecimal (get_timestamp fetch localMs))).map Prod.fst := by
    rw [dictInsert_keys]
    split
    · exact h
    · intro hc
      rcases List.mem_append.mp hc with hc | hc
      · exact h hc
      · simp only [List.mem_singleton] at hc
        exact absurd hc (by decide)
  refine ⟨hnot, send_signed_body_decomp apiSecret fetch localMs http method path payload h, ?_⟩
  rw [send_signed_payloadAfter, dictInsert_of_not_mem _ _ _ hnot, List.map_append]
  exact List.getLast?_concat _

/-- Witness for C1 at a concrete secret, payload and HTTP exchange. -/
theorem signature_over_others_and_last_witness :
    ("signature" ∉ cPayload.map Prod.fst) ∧
    ((send_signed cSecret cFetchFail cLocal cHttpOk "POST" API_ORDER_PATH
        cPayload).payloadAfter.map Prod.fst).getLast? = some "signature" :=
  ⟨by decide,
    (signature_over_others_and_last cSecret cFetchFail cLocal cHttpOk "POST" API_ORDER_PATH
      cPayload (by decide)).2.2⟩

/-- C2: `_sign` returns the lowercase hexadecimal rendering of the
HMAC-SHA256 digest, keyed by the raw secret bytes, of the UTF-8 bytes
of the insertion-order query-string encoding of the parameters; as a
pure Lean function it is deterministic and side-effect free, its output
has 64 characters and all of them are lowercase hexadecimal digits. -/
theorem sign_is_lowercase_hex_hmac (apiSecret : List Nat) (data : List (String × String)) :
    sign apiSecret data = bytesToHex (hmacSha256 apiSecret (utf8 (urlencode data))) ∧
    (sign apiSecret data).length = 64 ∧
    ∀ c ∈ (sign apiSecret data).toList, c ∈ hexChars :=
  ⟨rfl, sign_length apiSecret data, sign_toList_mem apiSecret data⟩

/-- C3 counterexample: `place_market_order` with the non-positive
quantity `-1` performs its HTTP call (one transport invocation) and
even returns the remote's success response — no `ValidationError`
exists anywhere in the client and no check precedes the network
activity, contradicting the claim that such calls fail before any
network activity. -/
theorem place_market_negative_qty_sends_request :
    (place_market_order cSecret cFetchFail cLocal cHttpOk "BTCUSDT" "BUY" (-1)
      false).httpCalls = 1 ∧
    (place_market_order cSecret cFetchFail cLocal cHttpOk "BTCUSDT" "BUY" (-1)
      false).result = .ok [("orderId", "1")] :=
  ⟨rfl, rfl⟩

/-- C3 amended: the client operations perform no validation — every
call, whatever its numeric arguments, makes exactly one transport
invocation; numeric validation lives only in the CLI layer, whose
`positive_number` rejects non-positive values (raising
`ArgumentTypeError` before any client call) and accepts positive
ones. -/
theorem client_sends_without_validation_cli_rejects (apiSecret : List Nat)
    (fetch : Except Unit TimeResp) (localMs : Int) (http : HttpOutcome)
    (symbol side timeInForce : String) (q p sp : ℚ) (ro : Bool) :
    (place_market_order apiSecret fetch localMs http symbol side q ro).httpCalls = 1 ∧
    (place_limit_order apiSecret fetch localMs http symbol side q p timeInForce
      ro).httpCalls = 1 ∧
    (place_stop_limit_order apiSecret fetch localMs http symbol side q sp p timeInForce
      ro).httpCalls = 1 ∧
    (q ≤ 0 → positive_number q = .error "must be > 0") ∧
    (0 < q → positive_number q = .ok q) := by
  refine ⟨send_signed_httpCalls apiSecret fetch localMs http "POST" API_ORDER_PATH _,
    send_signed_httpCalls apiSecret fetch localMs http "POST" API_ORDER_PATH _,
    send_signed_httpCalls apiSecret fetch localMs http "POST" API_ORDER_PATH _, ?_, ?_⟩
  · intro hq
    simp [positive_number, hq]
  · intro hq
    simp [positive_number, not_le.mpr hq]

/-- Witness for C3's amended statement: quantity `-1` still produces
one transport invocation, while the CLI validator rejects it. -/
theorem client_sends_without_validation_cli_rejects_witness :
    (place_market_order cSecret cFetchFail cLocal cHttpOk "BTCUSDT" "BUY" (-1)
      false).httpCalls = 1 ∧
    positive_number (-1) = .error "must be > 0" :=
  ⟨(client_sends_without_validation_cli_rejects cSecret cFetchFail cLocal cHttpOk
      "BTCUSDT" "BUY" "GTC" (-1) 1 1 false).1,
   (client_sends_without_validation_cli_rejects cSecret cFetchFail cLocal cHttpOk
      "BTCUSDT" "BUY" "GTC" (-1) 1 1 false).2.2.2.1 (by norm_num)⟩

/-- C4: each builder emits exactly the claimed field set in the claimed
order — MARKET: symbol, side, type=MARKET, quantity, reduceOnly;
LIMIT: symbol, side, type=LIMIT, timeInForce, quantity, price,
reduceOnly; STOP_LIMIT: symbol, side, type=STOP, quantity, stopPrice,
price, timeInForce, reduceOnly — and `reduceOnly` is rendered as the
literal string `true` or `false`. -/
theorem payloads_exact_fields (symbol side timeInForce : String) (q p sp : ℚ) (ro : Bool) :
    (marketPayload symbol side q ro).map Prod.fst
      = ["symbol", "side", "type", "quantity", "reduceOnly"] ∧
    (marketPayload symbol side q ro).lookup "type" = some "MARKET" ∧
    (limitPayload symbol side q p timeInForce ro).map Prod.fst
      = ["symbol", "side", "type", "timeInForce", "quantity", "price", "reduceOnly"] ∧
    (limitPayload symbol side q p timeInForce ro).lookup "type" = some "LIMIT" ∧
    (stopLimitPayload symbol side q sp p timeInForce ro).map Prod.fst
      = ["symbol", "side", "type", "quantity", "stopPrice", "price", "timeInForce",
          "reduceOnly"] ∧
    (stopLimitPayload symbol side q sp p timeInForce ro).lookup "type" = some "STOP" ∧
    (marketPayload symbol side q ro).lookup "reduceOnly" = some (pyBoolStr ro) ∧
    (pyBoolStr ro = "true" ∨ pyBoolStr ro = "false") := by
  refine ⟨rfl, rfl, rfl, rfl, rfl, rfl, rfl, ?_⟩
  cases ro
  · exact Or.inr rfl
  · exact Or.inl rfl

/-- C5 counterexample: a fully successful fetch (status 200,
well-formed body with `serverTime` present and equal to 0) still
returns the local clock, because the source tests `if server_time:`
and 0 is falsy — contradicting "on success it returns the
server-reported millisecond timestamp". -/
theorem get_timestamp_zero_servertime_local_fallback :
    get_timestamp (.ok ⟨200, some 0⟩) cLocal = cLocal ∧
    cLocal ≠ (0 : Int) ∧
    raisesForStatus 200 = false :=
  ⟨rfl, by decide, rfl⟩

/-- C5 amended: `_get_timestamp` is a total function (it never raises);
it returns the local clock when the fetch raised, when the status is
4xx/5xx (the statuses `raise_for_status` raises for — other non-2xx
statuses pass), or when `serverTime` is missing or zero (falsy), and
returns the server-reported timestamp exactly when the fetch succeeded
with a non-raising status and a nonzero `serverTime`. -/
theorem get_timestamp_classification (fetch : Except Unit TimeResp) (localMs : Int) :
    (fetch = .error () → get_timestamp fetch localMs = localMs) ∧
    (∀ r, fetch = .ok r → raisesForStatus r.status = true →
      get_timestamp fetch localMs = localMs) ∧
    (∀ r, fetch = .ok r → r.serverTime = none → get_timestamp fetch localMs = localMs) ∧
    (∀ r, fetch = .ok r → r.serverTime = some 0 → get_timestamp fetch localMs = localMs) ∧
    (∀ r t, fetch = .ok r → raisesForStatus r.status = false → r.serverTime = some t →
      t ≠ 0 → get_timestamp fetch localMs = t) := by
  refine ⟨?_, ?_, ?_, ?_, ?_⟩
  · rintro rfl
    rfl
  · rintro r rfl hs
    simp [get_timestamp, hs]
  · rintro r rfl hst
    by_cases hs : raisesForStatus r.status <;> simp [get_timestamp, hs, hst]
  · rintro r rfl hst
    by_cases hs : raisesForStatus r.status <;> simp [get_timestamp, hs, hst]
  · rintro r t rfl hs hst hne
    simp [get_timestamp, hs, hst, hne]

/-- Witness for C5's amended statement: a successful fetch with
`serverTime = 123` returns 123. -/
theorem get_timestamp_classification_witness :
    raisesForStatus 200 = false ∧ (123 : Int) ≠ 0 ∧
    get_timestamp (.ok ⟨200, some 123⟩) cLocal = 123 :=
  ⟨rfl, by decide,
    (get_timestamp_classification (.ok ⟨200, some 123⟩) cLocal).2.2.2.2
      ⟨200, some 123⟩ 123 rfl rfl rfl (by decide)⟩

/-- C6 counterexample: a 304 response — non-2xx — with a decodable
body is returned as success, not as a RemoteRejected failure, because
`raise_for_status` raises only for 4xx/5xx. -/
theorem status_304_returns_ok_not_rejected :
    (send_signed cSecret cFetchFail cLocal (.response 304 "ok" (some [("k", "v")]))
      "POST" API_ORDER_PATH cPayload).result = .ok [("k", "v")] ∧
    ¬ (200 ≤ 304 ∧ 304 < 300) :=
  ⟨rfl, by decide⟩

/-- C6 amended: a 4xx/5xx response fails as `remoteRejected` carrying
the decoded JSON error body when decodable and the raw text otherwise;
a transport-level failure with no response fails as
`transportFailure` carrying the cause; the classified error is the
call's result unchanged, and exactly one HTTP call is ever made (no
retry). -/
theorem send_signed_error_classification (apiSecret : List Nat)
    (fetch : Except Unit TimeResp) (localMs : Int) (method path : String)
    (payload : List (String × String)) (status : Nat) (text : String)
    (jsonBody : Option (List (String × String))) (cause : String) :
    (∀ j, jsonBody = some j → raisesForStatus status = true →
      (send_signed apiSecret fetch localMs (.response status text jsonBody) method path
        payload).result = .error (.remoteRejected (.json j))) ∧
    (jsonBody = none → raisesForStatus status = true →
      (send_signed apiSecret fetch localMs (.response status text jsonBody) method path
        payload).result = .error (.remoteRejected (.text text))) ∧
    ((send_signed apiSecret fetch localMs (.transportError cause) method path
      payload).result = .error (.transportFailure cause)) ∧
    (∀ http, (send_signed apiSecret fetch localMs http method path payload).httpCalls = 1) := by
  refine ⟨?_, ?_, rfl,
    fun http => send_signed_httpCalls apiSecret fetch localMs http method path payload⟩
  · rintro j rfl hs
    simp [send_signed, hs]
  · rintro rfl hs
    simp [send_signed, hs]

/-- Witness for C6's amended statement at a concrete 400 response with
a decodable error body. -/
theorem send_signed_error_classification_witness :
    raisesForStatus 400 = true ∧
    (send_signed cSecret cFetchFail cLocal
      (.response 400 "err" (some [("code", "-1111")])) "POST" API_ORDER_PATH
      cPayload).result = .error (.remoteRejected (.json [("code", "-1111")])) :=
  ⟨rfl,
    (send_signed_error_classification cSecret cFetchFail cLocal "POST" API_ORDER_PATH
      cPayload 400 "err" (some [("code", "-1111")]) "unused").1
      [("code", "-1111")] rfl rfl⟩

/-- C7: for every positive rational input, `_fmt_qty` and `_fmt_price`
render a fixed-point decimal string containing no exponent marker
(every character is a digit or the decimal point, in particular never
`e`/`E`), and quantity 1/1000 renders as "0.001000". -/
theorem fmt_fixed_point_no_exponent (q : ℚ) (h : 0 < q) :
    (∀ c ∈ (fmt_qty q).toList, c ≠ 'e' ∧ c ≠ 'E') ∧
    (∀ c ∈ (fmt_price q).toList, c ≠ 'e' ∧ c ≠ 'E') ∧
    fmt_qty (1 / 1000) = "0.001000" := by
  have key : ∀ c ∈ (formatFixed q).toList, c ≠ 'e' ∧ c ≠ 'E' := by
    intro c hc
    rcases formatFixed_pos_mem q h c hc with rfl | hd
    · exact ⟨by decide, by decide⟩
    · constructor <;> (rintro rfl; revert hd; decide)
  refine ⟨key, key, ?_⟩
  rw [fmt_qty, formatFixed, if_neg (by norm_num)]
  have h1 : (1 / 1000 : ℚ) * 1000000 = 1000 := by norm_num
  rw [h1]
  have h2 : roundHalfEven 1000 = 1000 := by
    rw [roundHalfEven]
    norm_num
  rw [h2]
  decide

/-- Witness for C7 at quantity 1/1000. -/
theorem fmt_fixed_point_no_exponent_witness :
    (0 : ℚ) < 1 / 1000 ∧ fmt_qty (1 / 1000) = "0.001000" :=
  ⟨by norm_num, (fmt_fixed_point_no_exponent (1 / 1000) (by norm_num)).2.2⟩

/-- C8 counterexample: the `REQUEST -> ...` debug line that
`_send_signed` writes to the log ends with the encoded body, whose last
field is the computed signature — so the logged string contains the
signature value, contradicting "the signature field is excluded from
logged output". -/
theorem request_log_contains_signature :
    ∃ a : String,
      (send_signed cSecret cFetchFail cLocal cHttpOk "POST" API_ORDER_PATH
        cPayload).logs.head?
        = some (a ++ sign cSecret
            (dictInsert cPayload "timestamp" (intDecimal (get_timestamp cFetchFail cLocal)))) := by
  have hb := send_signed_body_decomp cSecret cFetchFail cLocal cHttpOk "POST"
    API_ORDER_PATH cPayload (by decide)
  have hh := send_signed_logs_head cSecret cFetchFail cLocal cHttpOk "POST"
    API_ORDER_PATH cPayload
  refine ⟨"REQUEST -> " ++ "POST" ++ " " ++ (TESTNET_BASE ++ API_ORDER_PATH) ++ " | body: "
      ++ (urlencode (dictInsert cPayload "timestamp" (intDecimal (get_timestamp cFetchFail cLocal)))
          ++ "&signature="), ?_⟩
  rw [hh, hb]
  simp [requestLog, String.append_assoc]

/-- C8 amended: the log lines never contain the raw API secret — they
depend on the secret only through the computed signature value, so two
runs whose secrets sign this payload identically write identical log
lines — but the signature itself does appear in the logged request
body. -/
theorem logs_depend_on_secret_only_via_signature (s1 s2 : List Nat)
    (fetch : Except Unit TimeResp) (localMs : Int) (http : HttpOutcome)
    (method path : String) (payload : List (String × String))
    (h : sign s1 (dictInsert payload "timestamp" (intDecimal (get_timestamp fetch localMs)))
       = sign s2 (dictInsert payload "timestamp" (intDecimal (get_timestamp fetch localMs)))) :
    (send_signed s1 fetch localMs http method path payload).logs
      = (send_signed s2 fetch localMs http method path payload).logs := by
  cases http with
  | transportError c =>
    simp only [send_signed]
    rw [h]
  | response s t j =>
    simp only [send_signed]
    rw [h]

/-- Witness for C8's amended statement with two equal secrets. -/
theorem logs_depend_on_secret_only_via_signature_witness :
    sign cSecret (dictInsert cPayload "timestamp" (intDecimal (get_timestamp cFetchFail cLocal)))
      = sign cSecret (dictInsert cPayload "timestamp" (intDecimal (get_timestamp cFetchFail cLocal))) ∧
    (send_signed cSecret cFetchFail cLocal cHttpOk "POST" API_ORDER_PATH cPayload).logs
      = (send_signed cSecret cFetchFail cLocal cHttpOk "POST" API_ORDER_PATH cPayload).logs :=
  ⟨rfl,
    logs_depend_on_secret_only_via_signature cSecret cSecret cFetchFail cLocal cHttpOk
      "POST" API_ORDER_PATH cPayload rfl⟩

/-- C9: building and encoding twice from the same intent with the same
injected timestamp and secret yields byte-identical encoded bodies,
whatever each run's HTTP outcome — the body (and hence the signature
inside it) is a function of the intent, the timestamp and the secret
alone. -/
theorem encoded_body_idempotent (apiSecret : List Nat) (fetch : Except Unit TimeResp)
    (localMs : Int) (http1 http2 : HttpOutcome) (symbol side timeInForce : String)
    (q p sp : ℚ) (ro : Bool) :
    (place_market_order apiSecret fetch localMs http1 symbol side q ro).body
      = (place_market_order apiSecret fetch localMs http2 symbol side q ro).body ∧
    (place_limit_order apiSecret fetch localMs http1 symbol side q p timeInForce ro).body
      = (place_limit_order apiSecret fetch localMs http2 symbol side q p timeInForce ro).body ∧
    utf8 (place_limit_order apiSecret fetch localMs http1 symbol side q p timeInForce ro).body
      = utf8 (place_limit_order apiSecret fetch localMs http2 symbol side q p timeInForce ro).body ∧
    (place_stop_limit_order apiSecret fetch localMs http1 symbol side q sp p timeInForce ro).body
      = (place_stop_limit_order apiSecret fetch localMs http2 symbol side q sp p timeInForce
          ro).body := by
  refine ⟨?_, ?_, ?_, ?_⟩
  · simp only [place_market_order]
    rw [send_signed_body_eq, send_signed_body_eq]
  · simp only [place_limit_order]
    rw [send_signed_body_eq, send_signed_body_eq]
  · simp only [place_limit_order]
    rw [send_signed_body_eq, send_signed_body_eq]
  · simp only [place_stop_limit_order]
    rw [send_signed_body_eq, send_signed_body_eq]

/-- C10: `_send_signed` mutates the caller's payload dict in place —
after the call, whatever the HTTP outcome, the mapping carries the
additional keys `timestamp` and `signature` appended at the end, so a
builder payload is not reusable unchanged for a second submission. -/
theorem send_signed_mutates_caller_payload (apiSecret : List Nat)
    (fetch : Except Unit TimeResp) (localMs : Int) (http : HttpOutcome)
    (method path : String) (payload : List (String × String))
    (h1 : "timestamp" ∉ payload.map Prod.fst)
    (h2 : "signature" ∉ payload.map Prod.fst) :
    (send_signed apiSecret fetch localMs http method path payload).payloadAfter.map Prod.fst
      = payload.map Prod.fst ++ ["timestamp", "signature"] := by
  have hk1 : (dictInsert payload "timestamp" (intDecimal (get_timestamp fetch
      localMs))).map Prod.fst = payload.map Prod.fst ++ ["timestamp"] := by
    rw [dictInsert_keys, if_neg h1]
  have h2' : "signature" ∉
      (dictInsert payload "timestamp" (intDecimal (get_timestamp fetch localMs))).map
        Prod.fst := by
    rw [hk1]
    simp_all
  rw [send_signed_payloadAfter, dictInsert_keys, if_neg h2', hk1, List.append_assoc]
  rfl

/-- Witness for C10 at a concrete payload without those keys. -/
theorem send_signed_mutates_caller_payload_witness :
    ("timestamp" ∉ cPayload.map Prod.fst) ∧
    ("signature" ∉ cPayload.map Prod.fst) ∧
    (send_signed cSecret cFetchFail cLocal cHttpOk "POST" API_ORDER_PATH
      cPayload).payloadAfter.map Prod.fst
      = cPayload.map Prod.fst ++ ["timestamp", "signature"] :=
  ⟨by decide, by decide,
    send_signed_mutates_caller_payload cSecret cFetchFail cLocal cHttpOk "POST"
      API_ORDER_PATH cPayload (by decide) (by decide)⟩

end TradingBot
